import Mathlib

/-!
Verification of the breast-cancer analysis notebook
(`Breast_Cancer_ML_Project.ipynb`).

The notebook is a linear pipeline: load the sklearn breast-cancer
dataset into a dataframe, run EDA (missing values, describe, pairplot
on the first five columns, correlation heatmap), split the rows into
train/test partitions with `train_test_split(test_size=0.2,
random_state=42)`, standardize features with a `StandardScaler` fitted
on the train partition, fit three classifiers, score each by
`accuracy_score` on the test partition, and pick the key of maximal
value in the `accuracies` dict with `max(accuracies,
key=accuracies.get)`.

This file embeds the dataframe column structure, the split, the
scaler, the accuracy computation, the training loop (in the exception
monad for the failure-propagation claim) and the selection step, and
proves the specification claims about them.  Library internals
(the sklearn shuffle, the square root used for the standard deviation,
and the three classifiers themselves) are not part of the repository;
they enter the embedding as parameters or, where the specification
describes them, as definitions modelled from the specification.
-/

/-! ## Data model: dataframe columns -/

/-- Feature names of the sklearn breast-cancer dataset, in the order
`load_breast_cancer().feature_names` presents them; these become the
dataframe column names. -/
def featureNames : List String :=
  ["mean radius", "mean texture", "mean perimeter", "mean area",
   "mean smoothness", "mean compactness", "mean concavity",
   "mean concave points", "mean symmetry", "mean fractal dimension",
   "radius error", "texture error", "perimeter error", "area error",
   "smoothness error", "compactness error", "concavity error",
   "concave points error", "symmetry error", "fractal dimension error",
   "worst radius", "worst texture", "worst perimeter", "worst area",
   "worst smoothness", "worst compactness", "worst concavity",
   "worst concave points", "worst symmetry", "worst fractal dimension"]

/-- Columns of the dataframe `df`: the feature columns in order, then the
appended `target` column (`df["target"] = data.target`). -/
def dfColumns : List String := featureNames ++ ["target"]

/-- Column subset handed to the pairwise scatter plot:
`sns.pairplot(df, vars=df.columns[:5], hue="target", ...)` slices the
first five dataframe columns. -/
def pairplotVars : List String := dfColumns.take 5

/-- Hue column of the pairplot call: the literal `"target"`. -/
def pairplotHue : String := "target"

/-! ## Model declarations -/

/-- Explicitly passed constructor arguments of one model entry of the
`models` dict, as (argument name, argument value) pairs. -/
structure ModelConfig where
  name : String
  explicitArgs : List (String × String)
deriving DecidableEq

/-- The `models` dict of the notebook, in declaration order:
`RandomForestClassifier(random_state=42)`,
`LogisticRegression(max_iter=1000, random_state=42)`,
`SVC(random_state=42)`. -/
def modelConfigs : List ModelConfig :=
  [⟨"Random Forest", [("random_state", "42")]⟩,
   ⟨"Logistic Regression", [("max_iter", "1000"), ("random_state", "42")]⟩,
   ⟨"Support Vector Machine", [("random_state", "42")]⟩]

/-! ## Model selection -/

/-- Left fold of Python `max` with a key function over an association
list of accuracies: the running best is replaced only when a later
value is strictly greater, so on ties the earlier key survives. -/
def pyMaxFold (best : String × ℚ) : List (String × ℚ) → String × ℚ
  | [] => best
  | (k, v) :: rest => pyMaxFold (if best.2 < v then (k, v) else best) rest

/-- Embedding of `best_model_name = max(accuracies, key=accuracies.get)`
together with `best_model_accuracy = accuracies[best_model_name]`:
returns the (name, accuracy) pair Python selects, `none` on an empty
dict (where Python `max` raises). -/
def best_model : List (String × ℚ) → Option (String × ℚ)
  | [] => none
  | x :: rest => some (pyMaxFold x rest)

/-- The `accuracies` dict in insertion order, given the three recorded
accuracy values: Random Forest, then Logistic Regression, then Support
Vector Machine. -/
def accuraciesList (aRF aLR aSVM : ℚ) : List (String × ℚ) :=
  [("Random Forest", aRF), ("Logistic Regression", aLR),
   ("Support Vector Machine", aSVM)]

/-! ## Train/test split -/

/-- Number of test rows sklearn computes for a fractional `test_size`:
the ceiling of testSize * n (`n_test = ceil(test_size * n_samples)`),
with `n_train = n - n_test` when no train size is given. -/
def nTestOf (n : ℕ) (testSize : ℚ) : ℕ := (Int.ceil (testSize * n)).toNat

/-- Indices of the test partition: sklearn ShuffleSplit takes the first
nTest entries of the shuffled index permutation as the test set. -/
def testIndices (perm : List ℕ) (nTest : ℕ) : List ℕ := perm.take nTest

/-- Indices of the train partition: the remaining entries of the
shuffled permutation. -/
def trainIndices (perm : List ℕ) (nTest : ℕ) : List ℕ := perm.drop nTest

/-- Rows of a table at the given indices, in index order. Out-of-range
indices yield the default d; the pipeline only uses in-range indices. -/
def selectRows {α : Type _} (rows : List α) (idx : List ℕ) (d : α) : List α :=
  idx.map (fun i => rows.getD i d)

/-- Embedding of `train_test_split(X, y, test_size, random_state)` for
one column of data: the pair (train rows, test rows) induced by the
shuffled permutation. -/
def train_test_split {α : Type _} (rows : List α) (perm : List ℕ)
    (nTest : ℕ) (d : α) : List α × List α :=
  (selectRows rows (trainIndices perm nTest) d,
   selectRows rows (testIndices perm nTest) d)

/-- getD at an in-range index is the list element there. -/
theorem getD_of_lt {α : Type _} (l : List α) (i : ℕ) (d : α)
    (h : i < l.length) : l.getD i d = l[i] := by
  rw [List.getD_eq_getElem?_getD, List.getElem?_eq_getElem h]
  rfl

/-- Selecting rows of a zipped table equals zipping the row selections:
feature/label alignment is preserved by the split. -/
theorem selectRows_zip {α β : Type _} (X : List α) (y : List β)
    (idx : List ℕ) (dx : α) (dy : β)
    (h : ∀ i ∈ idx, i < X.length ∧ i < y.length) :
    selectRows (X.zip y) idx (dx, dy) =
      (selectRows X idx dx).zip (selectRows y idx dy) := by
  induction idx with
  | nil => rfl
  | cons i is ih =>
      obtain ⟨h1, h2⟩ := h i (List.mem_cons_self _ _)
      have hzl : i < (X.zip y).length := by
        rw [List.length_zip]
        exact lt_min h1 h2
      simp only [selectRows, List.map_cons, List.zip_cons_cons]
      rw [getD_of_lt _ _ _ hzl, getD_of_lt _ _ _ h1, getD_of_lt _ _ _ h2,
        List.getElem_zip]
      exact congrArg _ (ih (fun j hj => h j (List.mem_cons_of_mem _ hj)))

/-! ## Standardization -/

/-- Arithmetic mean of a list of rationals (0 for the empty list, which
the pipeline never feeds it). -/
def meanQ (l : List ℚ) : ℚ := l.sum / (l.length : ℚ)

/-- Population variance (ddof = 0, as StandardScaler uses) of a list of
rationals. -/
def varQ (l : List ℚ) : ℚ := meanQ (l.map (fun x => (x - meanQ l)^2))

/-- Column j of a row-major feature matrix. -/
def column (X : List (List ℚ)) (j : ℕ) : List ℚ :=
  X.map (fun r => r.getD j 0)

/-- Number of feature columns of a row-major matrix. -/
def nCols (X : List (List ℚ)) : ℕ := (X.headD []).length

/-- Embedding of `StandardScaler().fit`: the per-feature means and
population variances of the train matrix (sklearn stores these as
`mean_` and `var_`; the scale it divides by is the square root of the
variance). -/
def standardScaler_fit (X : List (List ℚ)) : List ℚ × List ℚ :=
  ((List.range (nCols X)).map (fun j => meanQ (column X j)),
   (List.range (nCols X)).map (fun j => varQ (column X j)))

/-- Modelled from the spec: the standardization transform of one row is
the per-feature linear map subtracting the train mean and dividing by
the train standard deviation; the numeric square root the library
applies to the stored variance is supplied as sqrtFn. -/
def transformRow (sqrtFn : ℚ → ℚ) : List ℚ → List ℚ → List ℚ → List ℚ
  | μ :: μs, v :: vs, x :: xs =>
      (x - μ) / sqrtFn v :: transformRow sqrtFn μs vs xs
  | _, _, _ => []

/-- Embedding of `scaler.transform` (and of the transform half of
`fit_transform`): applies the fitted per-feature affine map to every
row of a matrix. -/
def standardScaler_transform (sqrtFn : ℚ → ℚ) (p : List ℚ × List ℚ)
    (X : List (List ℚ)) : List (List ℚ) :=
  X.map (transformRow sqrtFn p.1 p.2)

/-- Sum of a list after centering by μ and dividing by σ. -/
theorem sum_map_center_div (l : List ℚ) (μ σ : ℚ) :
    (l.map (fun x => (x - μ) / σ)).sum =
      (l.sum - (l.length : ℚ) * μ) / σ := by
  induction l with
  | nil => simp
  | cons a t ih =>
      rw [List.map_cons, List.sum_cons, ih, div_add_div_same,
        List.sum_cons, List.length_cons]
      congr 1
      push_cast
      ring

/-- Centering a list by its own mean gives a list of mean zero, for any
scale divisor. -/
theorem meanQ_map_center (l : List ℚ) (σ : ℚ) :
    meanQ (l.map (fun x => (x - meanQ l) / σ)) = 0 := by
  rcases eq_or_ne l [] with h | h
  · subst h
    simp [meanQ]
  · have hlen : (l.length : ℚ) ≠ 0 :=
      Nat.cast_ne_zero.mpr (List.length_pos.mpr h).ne'
    rw [meanQ, sum_map_center_div, List.length_map]
    rw [show meanQ l = l.sum / (l.length : ℚ) from rfl]
    rw [mul_div_cancel₀ _ hlen, sub_self, zero_div, zero_div]

/-- Sum of a pointwise quotient is the quotient of the sum. -/
theorem sum_map_div (l : List ℚ) (f : ℚ → ℚ) (c : ℚ) :
    (l.map (fun x => f x / c)).sum = (l.map f).sum / c := by
  induction l with
  | nil => simp
  | cons a t ih =>
      rw [List.map_cons, List.sum_cons, ih, List.map_cons,
        List.sum_cons, div_add_div_same]

/-- Mean of a pointwise quotient is the quotient of the mean. -/
theorem meanQ_map_div (l : List ℚ) (f : ℚ → ℚ) (c : ℚ) :
    meanQ (l.map (fun x => f x / c)) = meanQ (l.map f) / c := by
  rw [meanQ, sum_map_div, List.length_map, meanQ, List.length_map,
    div_div, div_div, mul_comm]

/-- Scaling a centered list by a square root of its variance yields
variance one. -/
theorem varQ_map_center (l : List ℚ) (σ : ℚ)
    (hσ2 : σ^2 = varQ l) (hv : varQ l ≠ 0) :
    varQ (l.map (fun x => (x - meanQ l) / σ)) = 1 := by
  rw [varQ, meanQ_map_center]
  simp only [sub_zero, List.map_map, Function.comp_def, div_pow]
  rw [meanQ_map_div l (fun x => (x - meanQ l)^2) (σ^2),
    show meanQ (l.map (fun x => (x - meanQ l)^2)) = varQ l from rfl,
    hσ2, div_self hv]

/-- Entry j of a transformed row is the raw entry centered by the j-th
mean and divided by the square root of the j-th variance. -/
theorem transformRow_getD (f : ℚ → ℚ) (μs vs xs : List ℚ) (j : ℕ)
    (h1 : j < μs.length) (h2 : j < vs.length) (h3 : j < xs.length) :
    (transformRow f μs vs xs).getD j 0 =
      (xs.getD j 0 - μs.getD j 0) / f (vs.getD j 0) := by
  induction μs generalizing vs xs j with
  | nil => simp at h1
  | cons μ μt ih =>
      cases vs with
      | nil => simp at h2
      | cons v vt =>
          cases xs with
          | nil => simp at h3
          | cons x xt =>
              cases j with
              | zero => rfl
              | succ k =>
                  simp only [transformRow, List.getD_cons_succ]
                  exact ih vt xt k (by simpa using h1)
                    (by simpa using h2) (by simpa using h3)

/-- getD into a map over a range evaluates the mapped function. -/
theorem rangeMap_getD {f : ℕ → ℚ} {n j : ℕ} (h : j < n) :
    ((List.range n).map f).getD j 0 = f j := by
  rw [getD_of_lt _ _ _ (by simpa using h)]
  simp

/-- A column of a rowwise-mapped matrix. -/
theorem column_map (g : List ℚ → List ℚ) (X : List (List ℚ)) (j : ℕ) :
    column (X.map g) j = X.map (fun r => (g r).getD j 0) := by
  rw [column, List.map_map]
  rfl

/-- Mapping a scalar function over a column, rowwise. -/
theorem column_map_fun (h : ℚ → ℚ) (X : List (List ℚ)) (j : ℕ) :
    (column X j).map h = X.map (fun r => h (r.getD j 0)) := by
  rw [column, List.map_map]
  rfl

/-- The fitted mean list has one entry per column. -/
theorem fit_fst_length (X : List (List ℚ)) :
    (standardScaler_fit X).1.length = nCols X := by
  simp [standardScaler_fit]

/-- The fitted variance list has one entry per column. -/
theorem fit_snd_length (X : List (List ℚ)) :
    (standardScaler_fit X).2.length = nCols X := by
  simp [standardScaler_fit]

/-- Entry j of the fitted mean list is the mean of column j. -/
theorem fit_fst_getD (X : List (List ℚ)) {j : ℕ} (hj : j < nCols X) :
    (standardScaler_fit X).1.getD j 0 = meanQ (column X j) := by
  simp only [standardScaler_fit]
  exact rangeMap_getD hj

/-- Entry j of the fitted variance list is the variance of column j. -/
theorem fit_snd_getD (X : List (List ℚ)) {j : ℕ} (hj : j < nCols X) :
    (standardScaler_fit X).2.getD j 0 = varQ (column X j) := by
  simp only [standardScaler_fit]
  exact rangeMap_getD hj

/-- Column j of the matrix standardized with its own fitted parameters
is the raw column centered by its mean and divided by the square root
of its variance. -/
theorem column_transform (f : ℚ → ℚ) (X : List (List ℚ)) (j : ℕ)
    (hrect : ∀ r ∈ X, r.length = nCols X) (hj : j < nCols X) :
    column (standardScaler_transform f (standardScaler_fit X) X) j =
      (column X j).map (fun x =>
        (x - meanQ (column X j)) / f (varQ (column X j))) := by
  rw [standardScaler_transform, column_map, column_map_fun]
  apply List.map_congr_left
  intro r hr
  have h1 : j < (standardScaler_fit X).1.length := by
    rw [fit_fst_length]
    exact hj
  have h2 : j < (standardScaler_fit X).2.length := by
    rw [fit_snd_length]
    exact hj
  have h3 : j < r.length := by
    rw [hrect r hr]
    exact hj
  rw [transformRow_getD _ _ _ _ _ h1 h2 h3, fit_fst_getD X hj,
    fit_snd_getD X hj]

/-- Entry (i, j) of a matrix transformed with parameters fitted on the
train matrix is the raw entry centered by the train mean of column j
and divided by the square root of the train variance of column j. -/
theorem transform_entry (sqrtFn : ℚ → ℚ) (Xtr Xte : List (List ℚ))
    (i j : ℕ) (hj : j < nCols Xtr)
    (hte : ∀ r ∈ Xte, r.length = nCols Xtr) (hi : i < Xte.length) :
    ((standardScaler_transform sqrtFn (standardScaler_fit Xtr)
        Xte).getD i []).getD j 0 =
      ((Xte.getD i []).getD j 0 - meanQ (column Xtr j)) /
        sqrtFn (varQ (column Xtr j)) := by
  have hgd : Xte.getD i [] = Xte[i] := getD_of_lt _ _ _ hi
  have hmem : Xte[i] ∈ Xte := List.getElem_mem hi
  have h3 : j < (Xte[i]).length := by
    rw [hte _ hmem]
    exact hj
  have h1 : j < (standardScaler_fit Xtr).1.length := by
    rw [fit_fst_length]
    exact hj
  have h2 : j < (standardScaler_fit Xtr).2.length := by
    rw [fit_snd_length]
    exact hj
  rw [standardScaler_transform,
    getD_of_lt (Xte.map (transformRow sqrtFn (standardScaler_fit Xtr).1
      (standardScaler_fit Xtr).2)) i [] (by simpa using hi),
    List.getElem_map, transformRow_getD _ _ _ _ _ h1 h2 h3,
    fit_fst_getD Xtr hj, fit_snd_getD Xtr hj, hgd]

/-! ## Accuracy and the training loop -/

/-- Number of positions where two label lists agree (the count behind
`accuracy_score`); extra tail elements of the longer list are ignored. -/
def countEq : List ℕ → List ℕ → ℕ
  | a :: as, b :: bs => (if a = b then 1 else 0) + countEq as bs
  | _, _ => 0

/-- Embedding of `sklearn.metrics.accuracy_score(y_test, predictions)`:
the fraction of test positions whose predicted label equals the true
label. -/
def accuracy_score (yTrue yPred : List ℕ) : ℚ :=
  (countEq yTrue yPred : ℚ) / (yTrue.length : ℚ)

/-- The body of the training loop, with each model already reduced to
the prediction list it produces on the scaled test features: for every
(name, predictions) entry, record `accuracies[name] =
accuracy_score(y_test, predictions)` in iteration order. -/
def runModels (yTest : List ℕ) : List (String × List ℕ) → List (String × ℚ)
  | [] => []
  | (name, preds) :: rest =>
      (name, accuracy_score yTest preds) :: runModels yTest rest

/-- The training loop in the exception monad: each entry carries the
outcome of its `fit`/`predict` calls, an uncaught exception of which
aborts the Python run. An `Except.error` short-circuits the whole loop
with that same error; otherwise the accuracies are recorded in order. -/
def trainEvalLoop (yTest : List ℕ) :
    List (String × Except String (List ℕ)) →
      Except String (List (String × ℚ))
  | [] => .ok []
  | (name, fitResult) :: rest =>
      match fitResult with
      | .error e => .error e
      | .ok preds =>
          match trainEvalLoop yTest rest with
          | .error e => .error e
          | .ok acc => .ok ((name, accuracy_score yTest preds) :: acc)

/-- Whether a fit/predict outcome is a success. -/
def isOkE : Except String (List ℕ) → Bool
  | .ok _ => true
  | .error _ => false

/-- countEq never exceeds the length of the true-label list. -/
theorem countEq_le_length (a b : List ℕ) : countEq a b ≤ a.length := by
  induction a generalizing b with
  | nil => cases b <;> simp [countEq]
  | cons x xs ih =>
      cases b with
      | nil => simp [countEq]
      | cons y ys =>
          have h := ih ys
          by_cases hxy : x = y <;> simp [countEq, hxy] <;> omega

/-! ## The whole pipeline -/

/-- Observable outputs of one run of the notebook pipeline. -/
structure PipelineResult where
  trainIdx : List ℕ
  testIdx : List ℕ
  scalerMean : List ℚ
  scalerVar : List ℚ
  testScaled : List (List ℚ)
  accuracies : List (String × ℚ)
  best : Option (String × ℚ)

/-- The notebook pipeline from the split onwards, as one function.
shuffle stands for the seeded library permutation of the row indices
(deterministic in the seed, as the spec states), sqrtFn for the library
square root, and each entry of modelFns for a classifier reduced to the
function (scaled train features, train labels, scaled test features) ↦
predicted test labels, deterministic because every model is constructed
with a fixed random_state. The pipeline splits, fits the scaler on the
train partition only, transforms both partitions with those parameters,
scores every model and selects the best. -/
def runPipeline (sqrtFn : ℚ → ℚ) (shuffle : ℕ → ℕ → List ℕ)
    (modelFns : List (String ×
      (List (List ℚ) → List ℕ → List (List ℚ) → List ℕ)))
    (X : List (List ℚ)) (y : List ℕ) (seed : ℕ) (testSize : ℚ) :
    PipelineResult :=
  let perm := shuffle seed X.length
  let nTest := nTestOf X.length testSize
  let testIdx := testIndices perm nTest
  let trainIdx := trainIndices perm nTest
  let Xtr := selectRows X trainIdx []
  let Xte := selectRows X testIdx []
  let ytr := selectRows y trainIdx 0
  let yte := selectRows y testIdx 0
  let params := standardScaler_fit Xtr
  let XtrS := standardScaler_transform sqrtFn params Xtr
  let XteS := standardScaler_transform sqrtFn params Xte
  let accs := modelFns.map
    (fun m => (m.1, accuracy_score yte (m.2 XtrS ytr XteS)))
  { trainIdx := trainIdx, testIdx := testIdx,
    scalerMean := params.1, scalerVar := params.2,
    testScaled := XteS, accuracies := accs, best := best_model accs }

/-- nTestOf on five rows with a 20% test fraction is one row. -/
theorem nTestOf_five : nTestOf 5 (1/5) = 1 := by
  have hceil : ⌈(1/5 : ℚ) * ((5 : ℕ) : ℚ)⌉ = (1 : ℤ) := by
    rw [Int.ceil_eq_iff]
    norm_num
  unfold nTestOf
  rw [hceil]
  rfl

/-! ## Claims about the declarations and the selection step -/

/-- C10: the pairplot draws exactly the first five dataframe columns,
which are the first five feature columns, coloured by the `target`
column, and the target column itself is not among the plotted
variables. -/
theorem pairplot_uses_first_five_feature_columns :
    pairplotVars = featureNames.take 5 ∧
    pairplotVars = ["mean radius", "mean texture", "mean perimeter",
      "mean area", "mean smoothness"] ∧
    pairplotVars.length = 5 ∧
    pairplotHue = "target" ∧
    pairplotHue ∉ pairplotVars := by
  decide

/-- C8 counterexample: it is not the case that every explicitly passed
constructor argument of the three models is the random seed; the
Logistic Regression entry passes `max_iter=1000` as well. -/
theorem not_all_hyperparameters_default :
    ¬ ∀ m ∈ modelConfigs, ∀ p ∈ m.explicitArgs, p.1 = "random_state" := by
  decide

/-- C8 amended: every model passes `random_state=42`; Random Forest and
Support Vector Machine pass nothing else, while Logistic Regression
additionally passes `max_iter=1000`; no further constructor argument is
passed anywhere. -/
theorem hyperparameters_default_except_seed_and_lr_max_iter :
    (∀ m ∈ modelConfigs, ("random_state", "42") ∈ m.explicitArgs) ∧
    (∀ m ∈ modelConfigs, ∀ p ∈ m.explicitArgs,
      p.1 = "random_state" ∨
        (m.name = "Logistic Regression" ∧ p = ("max_iter", "1000"))) := by
  decide

/-- C2: every accuracy the training loop records is the number of test
rows whose prediction matches the true label divided by the number of
test rows, for the prediction list of the model of the same name, and
hence lies in the closed interval [0,1]. -/
theorem recorded_accuracy_is_match_fraction (yTest : List ℕ)
    (ms : List (String × List ℕ)) (name : String) (acc : ℚ)
    (hne : yTest ≠ []) (hmem : (name, acc) ∈ runModels yTest ms) :
    (∃ preds, (name, preds) ∈ ms ∧
      acc = (countEq yTest preds : ℚ) / (yTest.length : ℚ)) ∧
    0 ≤ acc ∧ acc ≤ 1 := by
  have hlen : 0 < (yTest.length : ℚ) := by
    exact_mod_cast List.length_pos.mpr hne
  induction ms with
  | nil => simp [runModels] at hmem
  | cons hd tl ih =>
      obtain ⟨hdName, hdPreds⟩ := hd
      rw [runModels, List.mem_cons] at hmem
      rcases hmem with heq | hmem
      · rw [Prod.mk.injEq] at heq
        obtain ⟨hn, ha⟩ := heq
        subst hn
        simp only [accuracy_score] at ha
        refine ⟨⟨hdPreds, List.mem_cons_self _ _, ha⟩, ?_, ?_⟩
        · rw [ha]
          positivity
        · rw [ha, div_le_one hlen]
          exact_mod_cast countEq_le_length yTest hdPreds
      · obtain ⟨⟨preds, hp, he⟩, h0, h1⟩ := ih hmem
        exact ⟨⟨preds, List.mem_cons_of_mem _ hp, he⟩, h0, h1⟩

/-- C2 witness: on the concrete test labels [1,0] and a model predicting
[1,1], the recorded accuracy is 1/2 and the theorem applies. -/
theorem recorded_accuracy_is_match_fraction_witness :
    ([1, 0] : List ℕ) ≠ [] ∧
    (("Random Forest", (1 : ℚ)/2) ∈
      runModels [1, 0] [("Random Forest", [1, 1])]) ∧
    ((∃ preds, ("Random Forest", preds) ∈ [("Random Forest", [1, 1])] ∧
        (1 : ℚ)/2 = (countEq [1, 0] preds : ℚ) / (([1, 0] : List ℕ).length : ℚ)) ∧
      0 ≤ (1 : ℚ)/2 ∧ (1 : ℚ)/2 ≤ 1) :=
  ⟨by decide, by norm_num [runModels, accuracy_score, countEq],
    recorded_accuracy_is_match_fraction [1, 0] [("Random Forest", [1, 1])]
      "Random Forest" ((1 : ℚ)/2) (by decide)
      (by norm_num [runModels, accuracy_score, countEq])⟩

/-- C9: if every model before some point of the fixed sequence fits and
predicts successfully and that model raises, the whole run aborts with
exactly that error — no recovery, no partial accuracy record — and the
outcome does not depend on the models after the failing one, which are
therefore never fitted or scored. -/
theorem fit_failure_aborts_run (yTest : List ℕ)
    (pre tail : List (String × Except String (List ℕ)))
    (name e : String) (hpre : ∀ m ∈ pre, isOkE m.2 = true) :
    trainEvalLoop yTest (pre ++ (name, Except.error e) :: tail) =
      Except.error e := by
  induction pre with
  | nil => simp [trainEvalLoop]
  | cons hd tl ih =>
      obtain ⟨hdName, hdRes⟩ := hd
      have hok := hpre _ (List.mem_cons_self _ _)
      cases hdRes with
      | error e2 => simp [isOkE] at hok
      | ok preds =>
          rw [List.cons_append, trainEvalLoop]
          rw [ih (fun m hm => hpre m (List.mem_cons_of_mem _ hm))]

/-- C9 witness: with Random Forest succeeding, Logistic Regression
raising "ValueError", and Support Vector Machine pending, the loop
aborts with exactly that error. -/
theorem fit_failure_aborts_run_witness :
    (∀ m ∈ [("Random Forest", Except.ok [0])],
      isOkE m.2 = true) ∧
    trainEvalLoop [0]
      ([("Random Forest", Except.ok [0])] ++
        ("Logistic Regression", Except.error "ValueError") ::
          [("Support Vector Machine", Except.ok [0])]) =
      Except.error "ValueError" :=
  ⟨by decide,
    fit_failure_aborts_run [0] [("Random Forest", Except.ok [0])]
      [("Support Vector Machine", Except.ok [0])]
      "Logistic Regression" "ValueError" (by decide)⟩

/-- C3: on the 569-row dataset with test_size = 0.2 the split takes 114
test rows and 455 train rows, the two index sets are disjoint and their
sizes sum to 569, and selecting the rows of the zipped (features,
label) table gives the zip of the feature and label selections, so
feature/label alignment is preserved in both partitions. -/
theorem split_is_disjoint_partition (perm : List ℕ) (X : List (List ℚ))
    (y : List ℕ) (hperm : perm.Perm (List.range 569))
    (hX : X.length = 569) (hy : y.length = 569) :
    nTestOf 569 (1/5) = 114 ∧
    (testIndices perm (nTestOf 569 (1/5))).length = 114 ∧
    (trainIndices perm (nTestOf 569 (1/5))).length = 455 ∧
    (testIndices perm (nTestOf 569 (1/5))).length +
      (trainIndices perm (nTestOf 569 (1/5))).length = 569 ∧
    (testIndices perm (nTestOf 569 (1/5))).Disjoint
      (trainIndices perm (nTestOf 569 (1/5))) ∧
    selectRows (X.zip y) (trainIndices perm (nTestOf 569 (1/5))) ([], 0) =
      (selectRows X (trainIndices perm (nTestOf 569 (1/5))) []).zip
        (selectRows y (trainIndices perm (nTestOf 569 (1/5))) 0) ∧
    selectRows (X.zip y) (testIndices perm (nTestOf 569 (1/5))) ([], 0) =
      (selectRows X (testIndices perm (nTestOf 569 (1/5))) []).zip
        (selectRows y (testIndices perm (nTestOf 569 (1/5))) 0) := by
  have hceil : ⌈(1/5 : ℚ) * ((569 : ℕ) : ℚ)⌉ = (114 : ℤ) := by
    rw [Int.ceil_eq_iff]
    norm_num
  have hn : nTestOf 569 (1/5) = 114 := by
    unfold nTestOf
    rw [hceil]
    rfl
  have hlen : perm.length = 569 := by simpa using hperm.length_eq
  have hnodup : perm.Nodup := hperm.nodup_iff.mpr (List.nodup_range 569)
  have hmem : ∀ i ∈ perm, i < 569 := by
    intro i hi
    have := hperm.mem_iff.mp hi
    simpa using this
  have hboundTr : ∀ i ∈ trainIndices perm (nTestOf 569 (1/5)),
      i < X.length ∧ i < y.length := by
    intro i hi
    have : i ∈ perm := List.mem_of_mem_drop hi
    exact ⟨by rw [hX]; exact hmem i this, by rw [hy]; exact hmem i this⟩
  have hboundTe : ∀ i ∈ testIndices perm (nTestOf 569 (1/5)),
      i < X.length ∧ i < y.length := by
    intro i hi
    have : i ∈ perm := List.mem_of_mem_take hi
    exact ⟨by rw [hX]; exact hmem i this, by rw [hy]; exact hmem i this⟩
  refine ⟨hn, ?_, ?_, ?_, ?_, ?_, ?_⟩
  · rw [testIndices, List.length_take, hn, hlen]
    omega
  · rw [trainIndices, List.length_drop, hn, hlen]
  · rw [testIndices, trainIndices, List.length_take, List.length_drop,
      hn, hlen]
    omega
  · exact List.disjoint_take_drop hnodup (le_refl _)
  · exact selectRows_zip X y _ _ _ hboundTr
  · exact selectRows_zip X y _ _ _ hboundTe

/-- C3 witness: the theorem applied to the identity permutation of the
569 row indices and concrete 569-row feature and label tables. -/
theorem split_is_disjoint_partition_witness :
    (List.range 569).Perm (List.range 569) ∧
    (List.replicate 569 ([] : List ℚ)).length = 569 ∧
    (List.replicate 569 (0 : ℕ)).length = 569 ∧
    ((testIndices (List.range 569) (nTestOf 569 (1/5))).length = 114 ∧
      (trainIndices (List.range 569) (nTestOf 569 (1/5))).length = 455 ∧
      (testIndices (List.range 569) (nTestOf 569 (1/5))).Disjoint
        (trainIndices (List.range 569) (nTestOf 569 (1/5))) ∧
      selectRows ((List.replicate 569 ([] : List ℚ)).zip
          (List.replicate 569 (0 : ℕ)))
          (trainIndices (List.range 569) (nTestOf 569 (1/5))) ([], 0) =
        (selectRows (List.replicate 569 ([] : List ℚ))
            (trainIndices (List.range 569) (nTestOf 569 (1/5))) []).zip
          (selectRows (List.replicate 569 (0 : ℕ))
            (trainIndices (List.range 569) (nTestOf 569 (1/5))) 0)) := by
  have h := split_is_disjoint_partition (List.range 569)
    (List.replicate 569 ([] : List ℚ)) (List.replicate 569 (0 : ℕ))
    (List.Perm.refl _) (by rw [List.length_replicate])
    (by rw [List.length_replicate])
  exact ⟨List.Perm.refl _, by rw [List.length_replicate],
    by rw [List.length_replicate],
    h.2.1, h.2.2.1, h.2.2.2.2.1, h.2.2.2.2.2.1⟩

/-- C6: after standardization, every train feature column has mean 0
and variance 1 exactly (in exact rational arithmetic, given an exact
square root of that column's variance — the floating-point tolerance of
the claim), and every scaled test entry equals the raw entry minus the
train mean of the feature divided by the train standard deviation. -/
theorem standardization_zero_mean_unit_variance (sqrtFn : ℚ → ℚ)
    (Xtr Xte : List (List ℚ)) (i j : ℕ)
    (hrect : ∀ r ∈ Xtr, r.length = nCols Xtr)
    (hj : j < nCols Xtr)
    (hs : sqrtFn (varQ (column Xtr j)) ^ 2 = varQ (column Xtr j))
    (hv : varQ (column Xtr j) ≠ 0)
    (hte : ∀ r ∈ Xte, r.length = nCols Xtr)
    (hi : i < Xte.length) :
    meanQ (column (standardScaler_transform sqrtFn
      (standardScaler_fit Xtr) Xtr) j) = 0 ∧
    varQ (column (standardScaler_transform sqrtFn
      (standardScaler_fit Xtr) Xtr) j) = 1 ∧
    ((standardScaler_transform sqrtFn (standardScaler_fit Xtr)
        Xte).getD i []).getD j 0 =
      ((Xte.getD i []).getD j 0 - meanQ (column Xtr j)) /
        sqrtFn (varQ (column Xtr j)) := by
  refine ⟨?_, ?_, ?_⟩
  · rw [column_transform sqrtFn Xtr j hrect hj]
    exact meanQ_map_center _ _
  · rw [column_transform sqrtFn Xtr j hrect hj]
    exact varQ_map_center _ _ hs hv
  · exact transform_entry sqrtFn Xtr Xte i j hj hte hi

/-- C6 witness: on the train matrix [[0],[2]] (column mean 1, variance
1) with the exact square root given by the identity on 1, and test
matrix [[5]], the theorem applies. -/
theorem standardization_zero_mean_unit_variance_witness :
    (∀ r ∈ ([[0], [2]] : List (List ℚ)), r.length = nCols [[0], [2]]) ∧
    0 < nCols ([[0], [2]] : List (List ℚ)) ∧
    ((fun q => q) (varQ (column ([[0], [2]] : List (List ℚ)) 0)) ^ 2 =
      varQ (column ([[0], [2]] : List (List ℚ)) 0)) ∧
    varQ (column ([[0], [2]] : List (List ℚ)) 0) ≠ 0 ∧
    (∀ r ∈ ([[5]] : List (List ℚ)), r.length = nCols [[0], [2]]) ∧
    0 < ([[5]] : List (List ℚ)).length ∧
    (meanQ (column (standardScaler_transform (fun q => q)
      (standardScaler_fit [[0], [2]]) [[0], [2]]) 0) = 0 ∧
    varQ (column (standardScaler_transform (fun q => q)
      (standardScaler_fit [[0], [2]]) [[0], [2]]) 0) = 1 ∧
    ((standardScaler_transform (fun q => q) (standardScaler_fit [[0], [2]])
        [[5]]).getD 0 []).getD 0 0 =
      ((([[5]] : List (List ℚ)).getD 0 []).getD 0 0 -
          meanQ (column ([[0], [2]] : List (List ℚ)) 0)) /
        (fun q => q) (varQ (column ([[0], [2]] : List (List ℚ)) 0))) :=
  ⟨by decide, by decide, by norm_num [varQ, meanQ, column],
    by norm_num [varQ, meanQ, column], by decide, by decide,
    standardization_zero_mean_unit_variance (fun q => q) [[0], [2]] [[5]]
      0 0 (by decide) (by decide) (by norm_num [varQ, meanQ, column])
      (by norm_num [varQ, meanQ, column]) (by decide) (by decide)⟩

/-- C7: when a train feature column has zero variance, the fitted scale
(the square root of the variance, with sqrt 0 = 0) is zero and the
transform step divides that feature by zero instead of guarding or
substituting a nonzero scale; under the total division of the embedding
every scaled entry of the feature degenerates to 0. -/
theorem zero_variance_gives_division_by_zero (sqrtFn : ℚ → ℚ)
    (Xtr : List (List ℚ)) (i j : ℕ)
    (hrect : ∀ r ∈ Xtr, r.length = nCols Xtr) (hj : j < nCols Xtr)
    (h0 : varQ (column Xtr j) = 0) (hs : sqrtFn 0 = 0)
    (hi : i < Xtr.length) :
    sqrtFn (varQ (column Xtr j)) = 0 ∧
    ((standardScaler_transform sqrtFn (standardScaler_fit Xtr)
        Xtr).getD i []).getD j 0 =
      ((Xtr.getD i []).getD j 0 - meanQ (column Xtr j)) / 0 ∧
    ((standardScaler_transform sqrtFn (standardScaler_fit Xtr)
        Xtr).getD i []).getD j 0 = 0 := by
  have hscale : sqrtFn (varQ (column Xtr j)) = 0 := by
    rw [h0]
    exact hs
  have hentry := transform_entry sqrtFn Xtr Xtr i j hj hrect hi
  refine ⟨hscale, ?_, ?_⟩
  · rw [hentry, hscale]
  · rw [hentry, hscale, div_zero]

/-- C7 witness: the constant train column of [[3],[3]] has zero
variance; with sqrt 0 = 0 the transform divides by zero and every
scaled entry collapses to 0. -/
theorem zero_variance_gives_division_by_zero_witness :
    (∀ r ∈ ([[3], [3]] : List (List ℚ)), r.length = nCols [[3], [3]]) ∧
    0 < nCols ([[3], [3]] : List (List ℚ)) ∧
    varQ (column ([[3], [3]] : List (List ℚ)) 0) = 0 ∧
    (fun q => q) (0 : ℚ) = 0 ∧
    0 < ([[3], [3]] : List (List ℚ)).length ∧
    ((fun q => q) (varQ (column ([[3], [3]] : List (List ℚ)) 0)) = 0 ∧
    ((standardScaler_transform (fun q => q) (standardScaler_fit [[3], [3]])
        [[3], [3]]).getD 0 []).getD 0 0 =
      ((([[3], [3]] : List (List ℚ)).getD 0 []).getD 0 0 -
          meanQ (column ([[3], [3]] : List (List ℚ)) 0)) / 0 ∧
    ((standardScaler_transform (fun q => q) (standardScaler_fit [[3], [3]])
        [[3], [3]]).getD 0 []).getD 0 0 = 0) :=
  ⟨by decide, by decide, by norm_num [varQ, meanQ, column], rfl,
    by decide,
    zero_variance_gives_division_by_zero (fun q => q) [[3], [3]] 0 0
      (by decide) (by decide) (by norm_num [varQ, meanQ, column]) rfl
      (by decide)⟩

/-- C4: the pipeline is deterministic — with the library randomness
reduced to functions of the fixed seed, two runs on the same dataset
with the same seed produce identical train and test partitions,
identical fitted scaler parameters, identical recorded accuracies and
the same selected best model. -/
theorem pipeline_deterministic (sqrtFn : ℚ → ℚ)
    (shuffle : ℕ → ℕ → List ℕ)
    (modelFns : List (String ×
      (List (List ℚ) → List ℕ → List (List ℚ) → List ℕ)))
    (X : List (List ℚ)) (y : List ℕ) (testSize : ℚ) (s1 s2 : ℕ)
    (h : s1 = s2) :
    (runPipeline sqrtFn shuffle modelFns X y s1 testSize).trainIdx =
      (runPipeline sqrtFn shuffle modelFns X y s2 testSize).trainIdx ∧
    (runPipeline sqrtFn shuffle modelFns X y s1 testSize).testIdx =
      (runPipeline sqrtFn shuffle modelFns X y s2 testSize).testIdx ∧
    (runPipeline sqrtFn shuffle modelFns X y s1 testSize).scalerMean =
      (runPipeline sqrtFn shuffle modelFns X y s2 testSize).scalerMean ∧
    (runPipeline sqrtFn shuffle modelFns X y s1 testSize).scalerVar =
      (runPipeline sqrtFn shuffle modelFns X y s2 testSize).scalerVar ∧
    (runPipeline sqrtFn shuffle modelFns X y s1 testSize).accuracies =
      (runPipeline sqrtFn shuffle modelFns X y s2 testSize).accuracies ∧
    (runPipeline sqrtFn shuffle modelFns X y s1 testSize).best =
      (runPipeline sqrtFn shuffle modelFns X y s2 testSize).best := by
  subst h
  exact ⟨rfl, rfl, rfl, rfl, rfl, rfl⟩

/-- C4 witness: two runs with seed 42 on a concrete five-row dataset
and a concrete constant-prediction model agree on every output. -/
theorem pipeline_deterministic_witness :
    (42 : ℕ) = 42 ∧
    ((runPipeline (fun q => q) (fun _ _ => [0, 1, 2, 3, 4])
        [("Random Forest", fun _ _ xs => xs.map (fun _ => 0))]
        [[0], [1], [2], [3], [4]] [0, 1, 0, 1, 0] 42 (1/5)).accuracies =
      (runPipeline (fun q => q) (fun _ _ => [0, 1, 2, 3, 4])
        [("Random Forest", fun _ _ xs => xs.map (fun _ => 0))]
        [[0], [1], [2], [3], [4]] [0, 1, 0, 1, 0] 42 (1/5)).accuracies ∧
    (runPipeline (fun q => q) (fun _ _ => [0, 1, 2, 3, 4])
        [("Random Forest", fun _ _ xs => xs.map (fun _ => 0))]
        [[0], [1], [2], [3], [4]] [0, 1, 0, 1, 0] 42 (1/5)).best =
      (runPipeline (fun q => q) (fun _ _ => [0, 1, 2, 3, 4])
        [("Random Forest", fun _ _ xs => xs.map (fun _ => 0))]
        [[0], [1], [2], [3], [4]] [0, 1, 0, 1, 0] 42 (1/5)).best) :=
  ⟨rfl,
    (pipeline_deterministic (fun q => q) (fun _ _ => [0, 1, 2, 3, 4])
      [("Random Forest", fun _ _ xs => xs.map (fun _ => 0))]
      [[0], [1], [2], [3], [4]] [0, 1, 0, 1, 0] (1/5) 42 42
      rfl).2.2.2.2.1,
    (pipeline_deterministic (fun q => q) (fun _ _ => [0, 1, 2, 3, 4])
      [("Random Forest", fun _ _ xs => xs.map (fun _ => 0))]
      [[0], [1], [2], [3], [4]] [0, 1, 0, 1, 0] (1/5) 42 42
      rfl).2.2.2.2.2⟩

/-- C5: no leakage — the fitted scaler parameters are a function of the
train partition only: two runs over equally sized datasets that agree
rowwise on the train partition, however much their test rows differ,
produce identical fitted means and variances; and the scaled test
matrix is obtained by applying the train-fitted parameters to the test
partition, never by refitting on it. -/
theorem scaler_no_leakage (sqrtFn : ℚ → ℚ) (shuffle : ℕ → ℕ → List ℕ)
    (modelFns : List (String ×
      (List (List ℚ) → List ℕ → List (List ℚ) → List ℕ)))
    (X1 X2 : List (List ℚ)) (y1 y2 : List ℕ) (seed : ℕ) (testSize : ℚ)
    (_hlen : X1.length = X2.length)
    (htr : selectRows X1 (trainIndices (shuffle seed X1.length)
        (nTestOf X1.length testSize)) [] =
      selectRows X2 (trainIndices (shuffle seed X2.length)
        (nTestOf X2.length testSize)) []) :
    (runPipeline sqrtFn shuffle modelFns X1 y1 seed testSize).scalerMean =
      (runPipeline sqrtFn shuffle modelFns X2 y2 seed testSize).scalerMean ∧
    (runPipeline sqrtFn shuffle modelFns X1 y1 seed testSize).scalerVar =
      (runPipeline sqrtFn shuffle modelFns X2 y2 seed testSize).scalerVar ∧
    (runPipeline sqrtFn shuffle modelFns X1 y1 seed testSize).testScaled =
      standardScaler_transform sqrtFn
        (standardScaler_fit (selectRows X1
          (trainIndices (shuffle seed X1.length)
            (nTestOf X1.length testSize)) []))
        (selectRows X1 (testIndices (shuffle seed X1.length)
          (nTestOf X1.length testSize)) []) := by
  refine ⟨?_, ?_, rfl⟩
  · show (standardScaler_fit (selectRows X1
        (trainIndices (shuffle seed X1.length)
          (nTestOf X1.length testSize)) [])).1 =
      (standardScaler_fit (selectRows X2
        (trainIndices (shuffle seed X2.length)
          (nTestOf X2.length testSize)) [])).1
    rw [htr]
  · show (standardScaler_fit (selectRows X1
        (trainIndices (shuffle seed X1.length)
          (nTestOf X1.length testSize)) [])).2 =
      (standardScaler_fit (selectRows X2
        (trainIndices (shuffle seed X2.length)
          (nTestOf X2.length testSize)) [])).2
    rw [htr]

/-- C5 witness: two five-row datasets that differ only in the test row
(row 0 of the fixed permutation) give identical fitted scaler
parameters. -/
theorem scaler_no_leakage_witness :
    ([[0], [1], [2], [3], [4]] : List (List ℚ)).length =
      ([[9], [1], [2], [3], [4]] : List (List ℚ)).length ∧
    selectRows ([[0], [1], [2], [3], [4]] : List (List ℚ))
        (trainIndices ((fun _ _ => [0, 1, 2, 3, 4]) 0
          ([[0], [1], [2], [3], [4]] : List (List ℚ)).length)
          (nTestOf ([[0], [1], [2], [3], [4]] : List (List ℚ)).length
            (1/5))) [] =
      selectRows ([[9], [1], [2], [3], [4]] : List (List ℚ))
        (trainIndices ((fun _ _ => [0, 1, 2, 3, 4]) 0
          ([[9], [1], [2], [3], [4]] : List (List ℚ)).length)
          (nTestOf ([[9], [1], [2], [3], [4]] : List (List ℚ)).length
            (1/5))) [] ∧
    ((runPipeline (fun q => q) (fun _ _ => [0, 1, 2, 3, 4]) []
        [[0], [1], [2], [3], [4]] [0, 0, 0, 0, 0] 0 (1/5)).scalerMean =
      (runPipeline (fun q => q) (fun _ _ => [0, 1, 2, 3, 4]) []
        [[9], [1], [2], [3], [4]] [0, 0, 0, 0, 0] 0 (1/5)).scalerMean ∧
    (runPipeline (fun q => q) (fun _ _ => [0, 1, 2, 3, 4]) []
        [[0], [1], [2], [3], [4]] [0, 0, 0, 0, 0] 0 (1/5)).scalerVar =
      (runPipeline (fun q => q) (fun _ _ => [0, 1, 2, 3, 4]) []
        [[9], [1], [2], [3], [4]] [0, 0, 0, 0, 0] 0 (1/5)).scalerVar) := by
  have htr : selectRows ([[0], [1], [2], [3], [4]] : List (List ℚ))
      (trainIndices ((fun _ _ => [0, 1, 2, 3, 4]) 0
        ([[0], [1], [2], [3], [4]] : List (List ℚ)).length)
        (nTestOf ([[0], [1], [2], [3], [4]] : List (List ℚ)).length
          (1/5))) [] =
    selectRows ([[9], [1], [2], [3], [4]] : List (List ℚ))
      (trainIndices ((fun _ _ => [0, 1, 2, 3, 4]) 0
        ([[9], [1], [2], [3], [4]] : List (List ℚ)).length)
        (nTestOf ([[9], [1], [2], [3], [4]] : List (List ℚ)).length
          (1/5))) [] := by
    have h5 : nTestOf 5 ((5 : ℚ)⁻¹) = 1 := by
      rw [show ((5 : ℚ)⁻¹) = 1/5 by norm_num]
      exact nTestOf_five
    simp [selectRows, trainIndices, List.getD, h5]
  have h := scaler_no_leakage (fun q => q) (fun _ _ => [0, 1, 2, 3, 4])
    [] [[0], [1], [2], [3], [4]] [[9], [1], [2], [3], [4]]
    [0, 0, 0, 0, 0] [0, 0, 0, 0, 0] 0 (1/5) rfl htr
  exact ⟨rfl, htr, h.1, h.2.1⟩

/-- C1: model selection returns the pair whose value is the maximum of
the three recorded accuracies; among equal maxima the first-registered
name (Random Forest, then Logistic Regression, then Support Vector
Machine) wins; and the reported accuracy is the value recorded for the
returned name. -/
theorem model_selection_picks_first_maximum (a b c : ℚ) :
    ∃ p : String × ℚ,
      best_model (accuraciesList a b c) = some p ∧
      p.2 = max a (max b c) ∧
      (accuraciesList a b c).lookup p.1 = some p.2 ∧
      p.1 = (if a = max a (max b c) then "Random Forest"
             else if b = max a (max b c) then "Logistic Regression"
             else "Support Vector Machine") := by
  rcases le_or_lt b a with h1 | h1
  · rcases le_or_lt c a with h2 | h2
    · have hmax : max a (max b c) = a := max_eq_left (max_le h1 h2)
      refine ⟨("Random Forest", a), ?_, hmax.symm, ?_, ?_⟩
      · simp [best_model, pyMaxFold, accuraciesList, not_lt.mpr h1,
          not_lt.mpr h2]
      · simp [accuraciesList, List.lookup]
      · rw [hmax, if_pos rfl]
    · have hmax : max a (max b c) = c := by
        rw [max_eq_right (h1.trans h2.le), max_eq_right h2.le]
      have hne1 : a ≠ c := ne_of_lt h2
      have hne2 : b ≠ c := ne_of_lt (lt_of_le_of_lt h1 h2)
      refine ⟨("Support Vector Machine", c), ?_, hmax.symm, ?_, ?_⟩
      · simp [best_model, pyMaxFold, accuraciesList, not_lt.mpr h1, h2]
      · simp [accuraciesList, List.lookup]
      · rw [hmax, if_neg hne1, if_neg hne2]
  · rcases le_or_lt c b with h2 | h2
    · have hmax : max a (max b c) = b := by
        rw [max_eq_left h2, max_eq_right h1.le]
      have hne1 : a ≠ b := ne_of_lt h1
      refine ⟨("Logistic Regression", b), ?_, hmax.symm, ?_, ?_⟩
      · simp [best_model, pyMaxFold, accuraciesList, h1, not_lt.mpr h2]
      · simp [accuraciesList, List.lookup]
      · rw [hmax, if_neg hne1, if_pos rfl]
    · have hmax : max a (max b c) = c := by
        rw [max_eq_right h2.le, max_eq_right (h1.trans h2).le]
      have hne1 : a ≠ c := ne_of_lt (h1.trans h2)
      have hne2 : b ≠ c := ne_of_lt h2
      refine ⟨("Support Vector Machine", c), ?_, hmax.symm, ?_, ?_⟩
      · simp [best_model, pyMaxFold, accuraciesList, h1, h2]
      · simp [accuraciesList, List.lookup]
      · rw [hmax, if_neg hne1, if_neg hne2]
